import Mathlib

/-!
Verification of the Agnochatbot hybrid memory coordination layer.

The repository consists of two React frontends (`agnochat-frontend`,
`frontend`), deployment glue, and a technical report
(`src/unnamed/part_008`) whose embedded Python snippets document the
memory-routing backend.  The frontend components are embedded directly
from their TypeScript source; the backend coordination engine
(`recall`, `remember`, consolidation, backend adapters) is not present
under `src/`, so those parts are modelled from the specification, as
marked on each definition.
-/

namespace Agnochat

/-! ### Shared data model -/

/-- The two memory backends.  In the repository Zep is the temporal /
relationship graph store ("Graph Memory") and Mem0 the fact store
("Fact Memory"). -/
inductive MemBackend where
  | zep
  | mem0
deriving DecidableEq, Repr

/-- Classification of a query or fact candidate, as produced by the
classifier calls `is_temporal_query` / `is_factual_query` in
`route_memory_query` (src/unnamed/part_008) and by the `kind` field of
a `FactCandidate` in the specification. -/
inductive MemKind where
  | temporal
  | factual
  | ambiguous
deriving DecidableEq, Repr

/-! ### C3: routing dispatch -/

/-- Embeds `route_memory_query` from the technical report
(src/unnamed/part_008, §2.2): a temporal query is answered by
`zep_memory.search` only, a factual query by `mem0_memory.search`
only, and any other query by both backends (hybrid).  The returned
list records, in order, which backends receive the call. -/
def route_memory_query (kind : MemKind) : List MemBackend :=
  match kind with
  | .temporal => [.zep]
  | .factual => [.mem0]
  | .ambiguous => [.zep, .mem0]

/-- A fact candidate produced by the fact normalizer.  Modelled from
the spec: `FactCandidate { content, kind, confidence }` (§3); the
normalizer itself is external to the routing dispatch. -/
structure FactCandidate where
  content : String
  kind : MemKind
  confidence : ℚ
deriving DecidableEq, Repr

/-- Modelled from the spec: the Write Router (§4.3) dispatches each
candidate by its `kind` with the same dispatch table as
`route_memory_query` in the technical report: `temporal` to Graph
Memory only, `factual` to Fact Memory only, `ambiguous` to both. -/
def routeCandidate (c : FactCandidate) : List MemBackend :=
  route_memory_query c.kind

/-! ### C9: MemorySearch.handleSearch
(src/agnochat-frontend/src/components/MemorySearch.tsx) -/

/-- The `SearchResult` interface of MemorySearch.tsx.  The optional
`relevance` field was removed from produced results in the source
("Removed hardcoded relevance score"), hence `Option`. -/
structure SearchResult where
  id : String
  query : String
  results : String
  timestamp : String
  relevance : Option ℚ
deriving DecidableEq, Repr

/-- The component state touched by `handleSearch`: the displayed
result (`searchResults`, initially `null`) and the search history
(`searchHistory`). -/
structure MemorySearchState where
  searchResults : Option SearchResult
  searchHistory : List SearchResult
deriving DecidableEq, Repr

/-- The failure entry built in the `catch` branch of `handleSearch`:
a fresh result echoing the attempted query whose `results` text is
the failure message, with no relevance score. -/
def failureEntry (nowId nowTs query errMsg : String) : SearchResult :=
  { id := nowId
    query := query
    results := "Search failed: " ++ errMsg
    timestamp := nowTs
    relevance := none }

/-- A string is blank when all of its characters are whitespace —
exactly when JavaScript `s.trim()` is the empty (falsy) string. -/
def isBlank (s : String) : Bool :=
  s.data.all Char.isWhitespace

/-- Embeds `handleSearch` of MemorySearch.tsx.  The `onSearch`
callback outcome is passed explicitly (`Except` for reject/resolve).
On resolve the result is displayed and prepended onto
`prev.slice(0, 9)` ("Keep last 10 searches"); on reject only the
displayed result is replaced by the failure entry.  The leading guard
`if (!searchQuery.trim()) return` leaves the state unchanged. -/
def handleSearch (st : MemorySearchState) (query : String)
    (nowId nowTs : String) (outcome : Except String SearchResult) :
    MemorySearchState :=
  if isBlank query then st
  else
    match outcome with
    | .ok result =>
        { st with
          searchResults := some result
          searchHistory := result :: st.searchHistory.take 9 }
    | .error e =>
        { st with searchResults := some (failureEntry nowId nowTs query e) }

/-! ### C10: MemoryAnalytics bar widths (src/unnamed/part_002) -/

/-- The `MemoryStats` props interface of MemoryAnalytics
(src/unnamed/part_002).  The fields hold memory counts, fetched as
integers by `fetchMemoryStats` (src/unnamed/part_000). -/
structure MemoryStats where
  totalMemories : ℤ
  zepMemories : ℤ
  mem0Memories : ℤ
  activeSessions : ℤ
deriving DecidableEq, Repr

/-- Division that refuses a zero divisor, making any division by zero
observable as `none`. -/
def checkedDiv (a b : ℤ) : Option ℚ :=
  if b = 0 then none else some ((a : ℚ) / (b : ℚ))

/-- The Zep bar-width expression of the memory-distribution chart:
`stats.totalMemories > 0 ? (stats.zepMemories / stats.totalMemories) * 100 : 0`,
with the division routed through `checkedDiv` so that a division by
zero would surface as `none`. -/
def zepBarWidth (s : MemoryStats) : Option ℚ :=
  if 0 < s.totalMemories then
    (checkedDiv s.zepMemories s.totalMemories).map (fun x => x * 100)
  else some 0

/-- The Mem0 bar-width expression of the memory-distribution chart,
guarded identically to `zepBarWidth`. -/
def mem0BarWidth (s : MemoryStats) : Option ℚ :=
  if 0 < s.totalMemories then
    (checkedDiv s.mem0Memories s.totalMemories).map (fun x => x * 100)
  else some 0

/-! ### Hybrid Query Engine (spec §4.4) and Memory Coordinator results.
The backend implementation is not under `src/`; all definitions in
this section are modelled from the specification. -/

/-- Modelled from the spec: `MemoryRecord` (§3) with `id, backend,
user_id, content, created_at, valid_at, invalidated_at?, score?`.
Timestamps are day numbers; the optional `score` is the
backend-native relevance. -/
structure MemoryRecord where
  id : Nat
  backend : MemBackend
  userId : String
  content : String
  createdAt : Nat
  validAt : Nat
  invalidatedAt : Option Nat
  score : Option ℚ
deriving DecidableEq, Repr

/-- Modelled from the spec: the dedup baseline "case-insensitive
trimmed string equality" (§4.4 step 3) — trim surrounding whitespace
and lower-case. -/
def normContent (s : String) : String :=
  ⟨(((s.data.dropWhile Char.isWhitespace).reverse.dropWhile
      Char.isWhitespace).reverse).map Char.toLower⟩

/-- Modelled from the spec: recency with "linear decay over a 30-day
half-life" (§4.4 step 4) — worth 1 at `validAt = now`, half after 30
days, reaching 0 at 60 days, clamped below at 0. -/
def recencyScore (now validAt : Nat) : ℚ :=
  max 0 (1 - ((now : ℚ) - (validAt : ℚ)) / 60)

/-- Modelled from the spec: the composite ranking score (§4.4 step
4): backend-native relevance (taken as 0 when absent) weighted 0.7
plus recency weighted 0.3. -/
def compositeScore (now : Nat) (r : MemoryRecord) : ℚ :=
  7 / 10 * r.score.getD 0 + 3 / 10 * recencyScore now r.validAt

/-- The ranking order of merged results: `rankLE now a b` holds when
`a` may precede `b` — strictly higher composite score first, ties
broken by more-recent `valid_at` (§3 `MergedContext` ordering
invariant). -/
def rankLE (now : Nat) (a b : MemoryRecord) : Prop :=
  compositeScore now b < compositeScore now a ∨
    (compositeScore now a = compositeScore now b ∧ b.validAt ≤ a.validAt)

instance rankLEDecidable (now : Nat) : DecidableRel (rankLE now) := fun a b =>
  decidable_of_iff
    (compositeScore now b < compositeScore now a ∨
      (compositeScore now a = compositeScore now b ∧ b.validAt ≤ a.validAt))
    Iff.rfl

instance rankLETotal (now : Nat) : IsTotal MemoryRecord (rankLE now) := by
  constructor
  intro a b
  rcases lt_trichotomy (compositeScore now a) (compositeScore now b) with h | h | h
  · exact Or.inr (Or.inl h)
  · rcases Nat.le_total b.validAt a.validAt with hv | hv
    · exact Or.inl (Or.inr ⟨h, hv⟩)
    · exact Or.inr (Or.inr ⟨h.symm, hv⟩)
  · exact Or.inl (Or.inl h)

instance rankLETrans (now : Nat) : IsTrans MemoryRecord (rankLE now) := by
  constructor
  intro a b c hab hbc
  rcases hab with hab | ⟨hab, hav⟩
  · rcases hbc with hbc | ⟨hbc, _⟩
    · exact Or.inl (hbc.trans hab)
    · exact Or.inl (hbc ▸ hab)
  · rcases hbc with hbc | ⟨hbc, hbv⟩
    · exact Or.inl (hab ▸ hbc)
    · exact Or.inr ⟨hab.trans hbc, hbv.trans hav⟩

/-- Keep the record with the later `valid_at` of two duplicates
(§4.4 step 3). -/
def laterValid (a b : MemoryRecord) : MemoryRecord :=
  if a.validAt < b.validAt then b else a

/-- One step of merging a record into the deduplicated accumulator:
if a record with the same normalized content is present, the kept
copy is replaced by the duplicate with the later `valid_at`,
otherwise the record is appended. -/
def dedupStep (acc : List MemoryRecord) (r : MemoryRecord) :
    List MemoryRecord :=
  if acc.any (fun s => normContent s.content == normContent r.content) then
    acc.map (fun s =>
      if normContent s.content == normContent r.content then laterValid s r
      else s)
  else acc ++ [r]

/-- Modelled from the spec: deduplicate by normalized content
similarity, keeping the later `valid_at` copy (§4.4 step 3). -/
def dedupRecords (l : List MemoryRecord) : List MemoryRecord :=
  l.foldl dedupStep []

/-- Modelled from the spec: steps 3–4 of `recall` (§4.4) — merge and
deduplicate, exclude every record with `invalidated_at` set, and sort
by descending composite score with the `valid_at` tie-break. -/
def rankPipeline (now : Nat) (records : List MemoryRecord) :
    List MemoryRecord :=
  List.insertionSort (rankLE now)
    ((dedupRecords records).filter (fun r => r.invalidatedAt.isNone))

/-- Modelled from the spec: `MergedContext` (§3) — the bounded,
ordered context built per `recall` call. -/
structure MergedContext where
  userId : String
  entries : List MemoryRecord
  truncated : Bool
deriving DecidableEq, Repr

/-- Modelled from the spec: the typed read-failure result
`MemoryUnavailable` (§7). -/
inductive RecallFailure where
  | memoryUnavailable
deriving DecidableEq, Repr

/-- Modelled from the spec: the typed write-failure result
`MemoryWriteFailed` (§7). -/
inductive RememberFailure where
  | memoryWriteFailed
deriving DecidableEq, Repr

/-- Modelled from the spec: the default `maxEntries` of `recall`
(§4.4 step 5). -/
def defaultMaxEntries : Nat := 10

/-- Modelled from the spec: `recall` (§4.4) after the two concurrent
backend searches have completed; each backend response is `none` when
that backend timed out or was unavailable.  Both down: the typed
`MemoryUnavailable` result.  One down: the other backend's results
alone, with `truncated = true` (partial-result policy).  Both up:
merge, dedup, rank, truncate to `maxEntries`, and set `truncated`
exactly when entries were cut. -/
def recallModel (uid query : String) (now maxEntries : Nat)
    (graphRes factRes : Option (List MemoryRecord)) :
    Except RecallFailure MergedContext :=
  match graphRes, factRes with
  | none, none => .error .memoryUnavailable
  | some g, none =>
      .ok { userId := uid
            entries := (rankPipeline now g).take maxEntries
            truncated := true }
  | none, some f =>
      .ok { userId := uid
            entries := (rankPipeline now f).take maxEntries
            truncated := true }
  | some g, some f =>
      let ranked := rankPipeline now (g ++ f)
      .ok { userId := uid
            entries := ranked.take maxEntries
            truncated := decide (maxEntries < ranked.length) }

/-- Modelled from the spec: the per-backend outcome recorded by the
Write Router for one candidate's writes (§4.3). -/
structure WriteResult where
  backend : MemBackend
  ok : Bool
deriving DecidableEq, Repr

/-- Modelled from the spec: the overall outcome of `remember` (§4.3,
§7) — at least one successful backend write is required; if every
backend write for the turn failed the typed `MemoryWriteFailed`
result is returned. -/
def rememberModel (writes : List WriteResult) :
    Except RememberFailure Unit :=
  if writes.any (fun w => w.ok) then .ok () else .error .memoryWriteFailed

end Agnochat

namespace Agnochat

/-- Every record the pipeline emits has `invalidated_at` unset. -/
theorem rankPipeline_invalidated_none (now : Nat)
    (l : List MemoryRecord) (r : MemoryRecord)
    (h : r ∈ rankPipeline now l) : r.invalidatedAt = none := by
  have hmem : r ∈ (dedupRecords l).filter (fun r => r.invalidatedAt.isNone) :=
    ((List.perm_insertionSort (rankLE now) _).mem_iff).mp h
  have := (List.mem_filter.mp hmem).2
  exact Option.isNone_iff_eq_none.mp this

/-- The pipeline output is sorted by the ranking order. -/
theorem rankPipeline_sorted (now : Nat) (l : List MemoryRecord) :
    List.Sorted (rankLE now) (rankPipeline now l) :=
  List.sorted_insertionSort (rankLE now) _

/-- Any prefix taken from the pipeline is still sorted, and all its
records are uninvalidated. -/
theorem rankPipeline_take_ranked (now k : Nat) (l : List MemoryRecord) :
    List.Sorted (rankLE now) ((rankPipeline now l).take k) ∧
    ∀ r ∈ (rankPipeline now l).take k, r.invalidatedAt = none := by
  refine ⟨(rankPipeline_sorted now l).sublist (List.take_sublist k _), ?_⟩
  intro r hr
  exact rankPipeline_invalidated_none now l r ((List.take_sublist k _).subset hr)

/-- Claim C1: every `MergedContext` returned by `recall` has its
entries ordered by descending composite score (native relevance
weighted 0.7 plus 30-day-half-life recency weighted 0.3), ties broken
by more-recent `valid_at`, and contains no record whose
`invalidated_at` is set. -/
theorem c1_recall_entries_ranked (uid query : String) (now k : Nat)
    (gRes fRes : Option (List MemoryRecord)) (ctx : MergedContext)
    (h : recallModel uid query now k gRes fRes = .ok ctx) :
    List.Sorted (rankLE now) ctx.entries ∧
    ∀ r ∈ ctx.entries, r.invalidatedAt = none := by
  cases gRes with
  | none =>
    cases fRes with
    | none => simp [recallModel] at h
    | some f =>
      have hctx := Except.ok.inj h
      rw [← hctx]
      exact rankPipeline_take_ranked now k f
  | some g =>
    cases fRes with
    | none =>
      have hctx := Except.ok.inj h
      rw [← hctx]
      exact rankPipeline_take_ranked now k g
    | some f =>
      have hctx := Except.ok.inj h
      rw [← hctx]
      exact rankPipeline_take_ranked now k (g ++ f)

/-- Witness for C1 at a concrete pair of backend responses. -/
theorem c1_recall_entries_ranked_witness :
    List.Sorted (rankLE 0)
      (MergedContext.mk "u"
        [⟨1, .mem0, "u", "I live in Delhi", 0, 0, none, none⟩]
        false).entries ∧
    ∀ r ∈ (MergedContext.mk "u"
        [⟨1, .mem0, "u", "I live in Delhi", 0, 0, none, none⟩]
        false).entries, r.invalidatedAt = none :=
  c1_recall_entries_ranked "u" "where do I live" 0 10
    (some [⟨1, .mem0, "u", "I live in Delhi", 0, 0, none, none⟩])
    (some []) _ rfl

/-- Claim C2: two `recall` invocations with the same user id, query,
clock, entry bound, and identical backend responses produce identical
`MergedContext`s, entry order included — the merge, dedup and rank
step is a pure function of its inputs with no hidden state. -/
theorem c2_recall_deterministic (uid1 uid2 q1 q2 : String)
    (now1 now2 k1 k2 : Nat)
    (g1 g2 f1 f2 : Option (List MemoryRecord))
    (hu : uid1 = uid2) (hq : q1 = q2) (hn : now1 = now2) (hk : k1 = k2)
    (hg : g1 = g2) (hf : f1 = f2) :
    recallModel uid1 q1 now1 k1 g1 f1 = recallModel uid2 q2 now2 k2 g2 f2 := by
  subst hu hq hn hk hg hf
  rfl

/-- Witness for C2 at concrete identical invocations. -/
theorem c2_recall_deterministic_witness :
    recallModel "u" "q" 5 10 (some []) (some []) =
      recallModel "u" "q" 5 10 (some []) (some []) :=
  c2_recall_deterministic "u" "u" "q" "q" 5 5 10 10
    (some []) (some []) (some []) (some []) rfl rfl rfl rfl rfl rfl

/-- Claim C4: when exactly one backend is down, `recall` still
returns a result built from the other backend's records alone, marks
`truncated = true`, and yields `.ok` rather than raising. -/
theorem c4_partial_outage (uid q : String) (now k : Nat)
    (g f : List MemoryRecord) :
    recallModel uid q now k (some g) none =
      .ok { userId := uid
            entries := (rankPipeline now g).take k
            truncated := true } ∧
    recallModel uid q now k none (some f) =
      .ok { userId := uid
            entries := (rankPipeline now f).take k
            truncated := true } :=
  ⟨rfl, rfl⟩

/-- Claim C5: both backend reads failing makes `recall` return the
typed `MemoryUnavailable` result, and every backend write failing
makes `remember` return the typed `MemoryWriteFailed` result; both
are ordinary values of the `Except` result types, not exceptions. -/
theorem c5_total_outage_typed (uid q : String) (now k : Nat)
    (ws : List WriteResult) (hne : ws ≠ [])
    (hall : ∀ w ∈ ws, w.ok = false) :
    recallModel uid q now k none none = .error .memoryUnavailable ∧
    rememberModel ws = .error .memoryWriteFailed := by
  refine ⟨rfl, ?_⟩
  have hany : ws.any (fun w => w.ok) = false := by
    rw [List.any_eq_false]
    intro w hw
    simp [hall w hw]
  simp [rememberModel, hany]

/-- Witness for C5: both reads down and a turn whose two backend
writes both failed. -/
theorem c5_total_outage_typed_witness :
    recallModel "u" "q" 0 10 none none = .error .memoryUnavailable ∧
    rememberModel [⟨.zep, false⟩, ⟨.mem0, false⟩] =
      .error .memoryWriteFailed :=
  c5_total_outage_typed "u" "q" 0 10 [⟨.zep, false⟩, ⟨.mem0, false⟩]
    (by decide) (by decide)

/-- Claim C6: `recall` returns at most `maxEntries` entries (default
10), and whenever the merged, deduplicated, ranked record list is
longer than the bound, `truncated` is set. -/
theorem c6_truncation (uid q : String) (now k : Nat) :
    defaultMaxEntries = 10 ∧
    (∀ (gRes fRes : Option (List MemoryRecord)) (ctx : MergedContext),
      recallModel uid q now k gRes fRes = .ok ctx →
      ctx.entries.length ≤ k) ∧
    (∀ (g f : List MemoryRecord) (ctx : MergedContext),
      recallModel uid q now k (some g) (some f) = .ok ctx →
      k < (rankPipeline now (g ++ f)).length → ctx.truncated = true) := by
  refine ⟨rfl, ?_, ?_⟩
  · intro gRes fRes ctx h
    have key : ∀ l : List MemoryRecord,
        ((rankPipeline now l).take k).length ≤ k := by
      intro l
      rw [List.length_take]
      exact Nat.min_le_left _ _
    cases gRes with
    | none =>
      cases fRes with
      | none => simp [recallModel] at h
      | some f =>
        rw [← Except.ok.inj h]
        exact key f
    | some g =>
      cases fRes with
      | none =>
        rw [← Except.ok.inj h]
        exact key g
      | some f =>
        rw [← Except.ok.inj h]
        exact key (g ++ f)
  · intro g f ctx h hlen
    rw [← Except.ok.inj h]
    simpa using hlen

/-- Witness for C6 with a bound of zero and one available record, so
the over-length branch is exercised. -/
theorem c6_truncation_witness :
    (MergedContext.mk "u" [] true).entries.length ≤ 0 ∧
    (MergedContext.mk "u" [] true).truncated = true :=
  ⟨(c6_truncation "u" "q" 0 0).2.1
      (some [⟨1, .mem0, "u", "tea", 0, 0, none, none⟩]) (some [])
      (MergedContext.mk "u" [] true) rfl,
    (c6_truncation "u" "q" 0 0).2.2
      [⟨1, .mem0, "u", "tea", 0, 0, none, none⟩] []
      (MergedContext.mk "u" [] true) rfl (by decide)⟩

end Agnochat

namespace Agnochat

/-! ### Consolidation Scheduler (spec §4.5), modelled from the spec:
no implementation is present under `src/`. -/

/-- Modelled from the spec: `b` supersedes `a` when the §4.4 dedup
comparator judges them duplicates and `b` is the more recent record
(a `valid_at` tie broken by id, so only one side of a duplicate pair
is retired). -/
def supersedes (b a : MemoryRecord) : Bool :=
  (normContent b.content == normContent a.content) &&
    (decide (a.validAt < b.validAt) ||
      (a.validAt == b.validAt && decide (a.id < b.id)))

/-- Modelled from the spec: one consolidation run (§4.5) over a
snapshot of a user's records.  Every record that is not yet
invalidated and is superseded by a similar, more recent record gets
`invalidated_at := now`; nothing is deleted and an `invalidated_at`
that is already set is left untouched. -/
def consolidateRun (now : Nat) (records : List MemoryRecord) :
    List MemoryRecord :=
  records.map fun r =>
    if r.invalidatedAt.isNone && records.any (fun s => supersedes s r) then
      { r with invalidatedAt := some now }
    else r

/-- Positional correspondence between a record and its later self:
the id survives and a set `invalidated_at` survives unchanged. -/
def invalPreserved (a b : MemoryRecord) : Prop :=
  a.id = b.id ∧ ∀ t, a.invalidatedAt = some t → b.invalidatedAt = some t

/-- A single consolidation run relates each input record to its
output record by `invalPreserved`. -/
theorem consolidateRun_forall2 (now : Nat) (recs : List MemoryRecord) :
    List.Forall₂ invalPreserved recs (consolidateRun now recs) := by
  unfold consolidateRun
  rw [List.forall₂_map_right_iff, List.forall₂_same]
  intro r _
  by_cases hc :
      (r.invalidatedAt.isNone && recs.any (fun s => supersedes s r)) = true
  · refine ⟨by simp [hc], ?_⟩
    intro t ht
    exfalso
    rw [ht] at hc
    simp at hc
  · exact ⟨by simp [hc], fun t ht => by simp [hc, ht]⟩

/-- `invalPreserved` correspondences compose. -/
theorem forall2_invalPreserved_trans {l1 l2 l3 : List MemoryRecord}
    (h12 : List.Forall₂ invalPreserved l1 l2)
    (h23 : List.Forall₂ invalPreserved l2 l3) :
    List.Forall₂ invalPreserved l1 l3 := by
  induction h12 generalizing l3 with
  | nil =>
    cases h23
    exact List.Forall₂.nil
  | cons hab _ ih =>
    cases h23 with
    | cons hbc htail =>
      exact List.Forall₂.cons
        ⟨hab.1.trans hbc.1, fun t ht => hbc.2 t (hab.2 t ht)⟩ (ih htail)

/-- Claim C7: across any sequence of consolidation runs, each record
keeps its identity at its position (no hard deletion) and an
`invalidated_at` that was set is still set with the same value in the
final state — invalidation is monotonic. -/
theorem c7_invalidation_monotonic (runs : List Nat)
    (recs : List MemoryRecord) :
    List.Forall₂ invalPreserved recs
      (runs.foldl (fun acc now => consolidateRun now acc) recs) ∧
    (runs.foldl (fun acc now => consolidateRun now acc) recs).length =
      recs.length := by
  have main : List.Forall₂ invalPreserved recs
      (runs.foldl (fun acc now => consolidateRun now acc) recs) := by
    induction runs generalizing recs with
    | nil => exact List.forall₂_same.mpr fun r _ => ⟨rfl, fun t ht => ht⟩
    | cons now rest ih =>
      simp only [List.foldl_cons]
      exact forall2_invalPreserved_trans (consolidateRun_forall2 now recs)
        (ih (consolidateRun now recs))
  exact ⟨main, main.length_eq.symm⟩

/-- Witness for C7: one run over a record whose `invalidated_at` is
already set. -/
theorem c7_invalidation_monotonic_witness :
    List.Forall₂ invalPreserved
      [⟨1, .zep, "u", "old fact", 0, 0, some 3, none⟩]
      (([5] : List Nat).foldl (fun acc now => consolidateRun now acc)
        [⟨1, .zep, "u", "old fact", 0, 0, some 3, none⟩]) ∧
    (([5] : List Nat).foldl (fun acc now => consolidateRun now acc)
        [⟨1, .zep, "u", "old fact", 0, 0, some 3, none⟩]).length =
      [(⟨1, .zep, "u", "old fact", 0, 0, some 3, none⟩ : MemoryRecord)].length :=
  c7_invalidation_monotonic [5] [⟨1, .zep, "u", "old fact", 0, 0, some 3, none⟩]

end Agnochat

namespace Agnochat

/-! ### Backend Client Adapters (spec §4.1), modelled from the spec:
the adapter implementations are not under `src/`. -/

/-- Modelled from the spec: adapter call policy (§4.1) — bounded
timeout (default 5s), bounded retries (default 2), exponential
backoff base (default 200ms). -/
structure AdapterConfig where
  timeoutMs : Nat
  maxRetries : Nat
  baseBackoffMs : Nat
deriving DecidableEq, Repr

/-- Modelled from the spec: the default adapter policy of §4.1. -/
def defaultAdapterConfig : AdapterConfig :=
  { timeoutMs := 5000, maxRetries := 2, baseBackoffMs := 200 }

/-- Outcome of a single attempt of one adapter call: success,
transient network failure, or a 4xx response. -/
inductive AttemptOutcome where
  | ok
  | transient
  | clientError
deriving DecidableEq, Repr

/-- Modelled from the spec: execution of one adapter call against a
script giving each attempt index its outcome.  A transient failure is
retried while retries remain; a success or a 4xx response ends the
call at once.  Returns the attempts performed, in order. -/
def performAttempts (script : Nat → AttemptOutcome) :
    Nat → Nat → List AttemptOutcome
  | 0, idx => [script idx]
  | rem + 1, idx =>
    match script idx with
    | .transient => .transient :: performAttempts script rem (idx + 1)
    | outcome => [outcome]

/-- The attempts performed by one adapter call under a policy. -/
def adapterCallAttempts (cfg : AdapterConfig)
    (script : Nat → AttemptOutcome) : List AttemptOutcome :=
  performAttempts script cfg.maxRetries 0

/-- Modelled from the spec: the wait before retry number `k`
(0-indexed), doubling from the base each retry. -/
def backoffDelay (cfg : AdapterConfig) (k : Nat) : Nat :=
  cfg.baseBackoffMs * 2 ^ k

/-- A call performs at most one more attempt than it has retries. -/
theorem performAttempts_length_le (script : Nat → AttemptOutcome) :
    ∀ rem idx, (performAttempts script rem idx).length ≤ rem + 1 := by
  intro rem
  induction rem with
  | zero => intro idx; simp [performAttempts]
  | succ rem ih =>
    intro idx
    unfold performAttempts
    cases script idx with
    | transient =>
      simp only [List.length_cons]
      exact Nat.succ_le_succ (ih (idx + 1))
    | ok => simp
    | clientError => simp

/-- A call always performs at least one attempt. -/
theorem performAttempts_ne_nil (script : Nat → AttemptOutcome) :
    ∀ rem idx, performAttempts script rem idx ≠ [] := by
  intro rem
  cases rem with
  | zero => intro idx; simp [performAttempts]
  | succ rem =>
    intro idx
    unfold performAttempts
    cases script idx <;> simp

/-- Every attempt that was followed by another attempt was a
transient failure: neither a success nor a 4xx response is ever
retried. -/
theorem performAttempts_retried_only_transient
    (script : Nat → AttemptOutcome) :
    ∀ rem idx, ∀ a ∈ (performAttempts script rem idx).dropLast,
      a = .transient := by
  intro rem
  induction rem with
  | zero => intro idx a ha; simp [performAttempts] at ha
  | succ rem ih =>
    intro idx a ha
    unfold performAttempts at ha
    cases hs : script idx with
    | transient =>
      rw [hs] at ha
      rw [List.dropLast_cons_of_ne_nil (performAttempts_ne_nil script rem (idx + 1))] at ha
      rcases List.mem_cons.mp ha with h | h
      · exact h
      · exact ih (idx + 1) a h
    | ok => rw [hs] at ha; simp at ha
    | clientError => rw [hs] at ha; simp at ha

/-- Claim C8: the default adapter policy has a 5-second timeout;
a call makes at most 3 attempts (2 retries); only transient failures
are retried, so a 4xx response is never retried; and the backoff
doubles each retry starting from 200ms. -/
theorem c8_adapter_retry_policy (script : Nat → AttemptOutcome) :
    defaultAdapterConfig.timeoutMs = 5000 ∧
    (adapterCallAttempts defaultAdapterConfig script).length ≤ 3 ∧
    (∀ a ∈ (adapterCallAttempts defaultAdapterConfig script).dropLast,
      a = .transient) ∧
    backoffDelay defaultAdapterConfig 0 = 200 ∧
    (∀ k, backoffDelay defaultAdapterConfig (k + 1) =
      2 * backoffDelay defaultAdapterConfig k) := by
  refine ⟨rfl, performAttempts_length_le script 2 0, ?_, rfl, ?_⟩
  · exact performAttempts_retried_only_transient script 2 0
  · intro k
    simp [backoffDelay, Nat.pow_succ]
    ring

/-- Witness for C8 against the all-transient script, which exercises
the full retry budget. -/
theorem c8_adapter_retry_policy_witness :
    defaultAdapterConfig.timeoutMs = 5000 ∧
    (adapterCallAttempts defaultAdapterConfig
      (fun _ => AttemptOutcome.transient)).length ≤ 3 ∧
    (∀ a ∈ (adapterCallAttempts defaultAdapterConfig
        (fun _ => AttemptOutcome.transient)).dropLast,
      a = .transient) ∧
    backoffDelay defaultAdapterConfig 0 = 200 ∧
    (∀ k, backoffDelay defaultAdapterConfig (k + 1) =
      2 * backoffDelay defaultAdapterConfig k) :=
  c8_adapter_retry_policy (fun _ => AttemptOutcome.transient)

/-- Claim C3: the routing dispatch sends a temporal candidate to
Graph Memory (Zep) only, a factual candidate to Fact Memory (Mem0)
exactly once and never to Graph Memory, and an ambiguous candidate to
both backends. -/
theorem c3_route_dispatch :
    (∀ c : FactCandidate, c.kind = .temporal →
      routeCandidate c = [MemBackend.zep]) ∧
    (∀ c : FactCandidate, c.kind = .factual →
      (routeCandidate c).count MemBackend.mem0 = 1 ∧
      MemBackend.zep ∉ routeCandidate c) ∧
    (∀ c : FactCandidate, c.kind = .ambiguous →
      MemBackend.zep ∈ routeCandidate c ∧
      MemBackend.mem0 ∈ routeCandidate c) := by
  refine ⟨fun c h => ?_, fun c h => ?_, fun c h => ?_⟩ <;>
    simp [routeCandidate, route_memory_query, h]

/-- Witness for C3 at concrete candidates of each kind. -/
theorem c3_route_dispatch_witness :
    routeCandidate ⟨"moved to Delhi", .temporal, 9/10⟩ = [MemBackend.zep] ∧
    ((routeCandidate ⟨"is vegetarian", .factual, 9/10⟩).count MemBackend.mem0 = 1 ∧
      MemBackend.zep ∉ routeCandidate ⟨"is vegetarian", .factual, 9/10⟩) ∧
    (MemBackend.zep ∈ routeCandidate ⟨"likes tea", .ambiguous, 1/2⟩ ∧
      MemBackend.mem0 ∈ routeCandidate ⟨"likes tea", .ambiguous, 1/2⟩) :=
  ⟨c3_route_dispatch.1 _ rfl, c3_route_dispatch.2.1 _ rfl,
    c3_route_dispatch.2.2 _ rfl⟩

/-- Claim C9: when the search callback rejects, `handleSearch` leaves
the history unchanged and replaces the displayed result by a failure
entry echoing the attempted query; only a resolved search prepends its
result (onto the first nine retained entries), and a history produced
by a resolved search never exceeds ten entries. -/
theorem c9_handleSearch_failure_isolation
    (st : MemorySearchState) (q nowId nowTs e : String)
    (r : SearchResult) (hq : isBlank q = false) :
    (handleSearch st q nowId nowTs (.error e)).searchHistory =
      st.searchHistory ∧
    (handleSearch st q nowId nowTs (.error e)).searchResults =
      some (failureEntry nowId nowTs q e) ∧
    (failureEntry nowId nowTs q e).query = q ∧
    (handleSearch st q nowId nowTs (.ok r)).searchHistory =
      r :: st.searchHistory.take 9 ∧
    (handleSearch st q nowId nowTs (.ok r)).searchHistory.length ≤ 10 := by
  have h9 : (st.searchHistory.take 9).length ≤ 9 :=
    st.searchHistory.length_take 9 ▸ Nat.min_le_left 9 _
  refine ⟨?_, ?_, rfl, ?_, ?_⟩
  · simp [handleSearch, hq]
  · simp [handleSearch, hq]
  · simp [handleSearch, hq]
  · simp only [handleSearch, hq, Bool.false_eq_true, if_false,
      List.length_cons]
    omega

/-- Witness for C9 at a concrete state and query. -/
theorem c9_handleSearch_failure_isolation_witness :
    let st : MemorySearchState := ⟨none, []⟩
    let r : SearchResult := ⟨"1", "food", "veg", "t1", none⟩
    (isBlank "food" = false) ∧
    ((handleSearch st "food" "2" "t2" (.error "boom")).searchHistory =
        st.searchHistory ∧
      (handleSearch st "food" "2" "t2" (.error "boom")).searchResults =
        some (failureEntry "2" "t2" "food" "boom") ∧
      (failureEntry "2" "t2" "food" "boom").query = "food" ∧
      (handleSearch st "food" "2" "t2" (.ok r)).searchHistory =
        r :: st.searchHistory.take 9 ∧
      (handleSearch st "food" "2" "t2" (.ok r)).searchHistory.length ≤ 10) :=
  ⟨by decide, c9_handleSearch_failure_isolation _ _ _ _ _ _ (by decide)⟩

/-- Claim C10: both bar-width expressions of the memory-distribution
chart only divide under the guard `totalMemories > 0`, so the checked
division never returns `none`: for every stats input each width is a
defined rational, and `0` whenever the guard fails. -/
theorem c10_barWidth_no_div_by_zero (s : MemoryStats) :
    (∃ w, zepBarWidth s = some w) ∧
    (∃ w, mem0BarWidth s = some w) ∧
    (¬ 0 < s.totalMemories → zepBarWidth s = some 0 ∧
      mem0BarWidth s = some 0) := by
  by_cases h : 0 < s.totalMemories
  · have hz : s.totalMemories ≠ 0 := ne_of_gt h
    refine ⟨⟨(s.zepMemories : ℚ) / (s.totalMemories : ℚ) * 100, ?_⟩,
      ⟨(s.mem0Memories : ℚ) / (s.totalMemories : ℚ) * 100, ?_⟩,
      fun hc => absurd h hc⟩ <;>
      simp [zepBarWidth, mem0BarWidth, checkedDiv, h, hz]
  · refine ⟨⟨0, ?_⟩, ⟨0, ?_⟩, fun _ => ⟨?_, ?_⟩⟩ <;>
      simp [zepBarWidth, mem0BarWidth, h]

/-- Witness for C10 at a zero-total stats input, the input on which an
unguarded division would fail. -/
theorem c10_barWidth_no_div_by_zero_witness :
    (∃ w, zepBarWidth ⟨0, 0, 0, 1⟩ = some w) ∧
    (∃ w, mem0BarWidth ⟨0, 0, 0, 1⟩ = some w) ∧
    (¬ (0:ℤ) < (0:ℤ) → zepBarWidth ⟨0, 0, 0, 1⟩ = some 0 ∧
      mem0BarWidth ⟨0, 0, 0, 1⟩ = some 0) :=
  c10_barWidth_no_div_by_zero ⟨0, 0, 0, 1⟩

end Agnochat
